import Mathlib

/-!
# Verification of the nestjs-graphql-microservices federation starter

A shallow embedding of the repository's users-service and products-service
business logic (resolvers, services, validation, exceptions) together with a
model of the federation query-planning/execution engine described by the
design specification (the engine itself is not implemented in the repository;
its composition is delegated to the Apollo gateway, so those parts are
modelled from the specification's words and marked as such).

Conventions of the embedding:
* Prisma databases are association lists of stored rows; `findUnique` is
  `List.find?` on the primary key, `findMany` a `List.filter`.
* Every service method returns a `SvcOutcome`: the `Except` result exactly as
  the TypeScript method resolves or throws, the database after the call, and
  the trace of database operations the method issued (used to state
  "no database access" / "no write on the error path" properties).
* `bcrypt.hash` is an injected function parameter `hash : String → String`
  (the services only ever apply it; they never inspect its output).
* Timestamps are tick counts (`Nat`); `Date.toISOString` is injective
  formatting and is modelled as the identity on ticks.
* JavaScript `undefined` flowing into `RegExp.test` coerces to the string
  `"undefined"`; a representation with a missing key field is modelled with
  `Option.getD _ "undefined"` accordingly.
-/

/-! ## UUID validation (`libs` utility `isValidUUID`)

The services import `isValidUUID` from the shared utility library; the
repository documents its implementation as the case-insensitive regular
expression
`^[0-9a-f]{8}-[0-9a-f]{4}-4[0-9a-f]{3}-[89ab][0-9a-f]{3}-[0-9a-f]{12}$/i`
(docs/03-development/README.md), i.e. it accepts exactly well-formed
version-4 UUIDs, matching the `IsUUID('4')` validator used on DTOs. -/

/-- A hexadecimal digit, case-insensitive (`[0-9a-f]` under the `/i` flag). -/
def isHexCI (c : Char) : Bool :=
  ('0' ≤ c && c ≤ '9') || ('a' ≤ c && c ≤ 'f') || ('A' ≤ c && c ≤ 'F')

/-- The UUID variant character class `[89ab]` under the `/i` flag. -/
def isUuidVariantCI (c : Char) : Bool :=
  c = '8' || c = '9' || c = 'a' || c = 'b' || c = 'A' || c = 'B'

/-- Which character the UUID regex allows at (0-based) position `i`:
dashes at 8/13/18/23, the version digit `4` at 14, a variant character at 19,
hex digits everywhere else. -/
def uuidCharOk (i : Nat) (c : Char) : Bool :=
  if i = 8 || i = 13 || i = 18 || i = 23 then c = '-'
  else if i = 14 then c = '4'
  else if i = 19 then isUuidVariantCI c
  else isHexCI c

/-- `isValidUUID` from the shared utility library: the string matches the
anchored v4-UUID regular expression (36 characters, each position in its
character class). -/
def isValidUUID (s : String) : Bool :=
  s.data.length = 36 && s.data.enum.all (fun p => uuidCharOk p.1 p.2)

/-! ## Exceptions (libs/common/exceptions/src/lib/exceptions.ts)

`ResourceNotFoundException` carries HTTP 404, `DuplicateResourceException`
HTTP 409, and `InvalidFormatException` extends Nest's `BadRequestException`,
hence HTTP 400. All three are 4xx client errors of the public GraphQL
surface; an internal (non-recoverable) error would carry a 5xx status. -/

/-- The exception types thrown by the services. -/
inductive ServiceError where
  | resourceNotFound (resource : String) (id : String)
  | duplicateResource (field : String)
  | invalidFormat (field : String) (value : String)
deriving DecidableEq, Repr

/-- The HTTP status each exception class carries. -/
def ServiceError.statusCode : ServiceError → Nat
  | .resourceNotFound _ _ => 404
  | .duplicateResource _ => 409
  | .invalidFormat _ _ => 400

/-- A user-facing recoverable (client, 4xx) error, as opposed to an internal
server (5xx) error. -/
def ServiceError.isUserFacingClientError (e : ServiceError) : Bool :=
  400 ≤ e.statusCode && e.statusCode < 500

/-- An internal, non-recoverable server error (5xx). -/
def ServiceError.isInternalServerError (e : ServiceError) : Bool :=
  500 ≤ e.statusCode

/-! ## Database operation traces -/

/-- One Prisma call issued by a service method. -/
inductive DbOp where
  | findUnique (table : String) (id : String)
  | findMany (table : String)
  | createRow (table : String)
  | updateRow (table : String) (id : String)
  | deleteRow (table : String) (id : String)
deriving DecidableEq, Repr

/-- Whether the operation writes to the database. -/
def DbOp.isWrite : DbOp → Bool
  | .createRow _ => true
  | .updateRow _ _ => true
  | .deleteRow _ _ => true
  | _ => false

/-- Outcome of one service-method call: the resolved/thrown result, the
database afterwards, and the trace of Prisma calls issued. -/
structure SvcOutcome (σ : Type) (α : Type) where
  result : Except ServiceError α
  db : σ
  ops : List DbOp
deriving Repr

/-! ## Users service data model -/

/-- A row of the users database (Prisma `User` model): the stored record
includes the password hash, which the GraphQL object type never exposes. -/
structure StoredUser where
  id : String
  email : String
  name : String
  password : String
  createdAt : Nat
  updatedAt : Nat
deriving DecidableEq, Repr

/-- The users-service database. -/
abbrev UsersDB := List StoredUser

/-- `CreateUserInput` (dto/create-user.input.ts): email, name, password. -/
structure CreateUserInput where
  email : String
  name : String
  password : String
deriving DecidableEq, Repr

/-- `UpdateUserInput`: the partial form of `CreateUserInput` (the `id` is
passed to `UsersService.update` separately, as in the resolver). -/
structure UpdateUserInput where
  email : Option String := none
  name : Option String := none
  password : Option String := none
deriving DecidableEq, Repr

/-- The federated `User` GraphQL object type (user.entity.ts): fields `id`,
`email`, `name`, `createdAt`, `updatedAt` — deliberately no password field. -/
structure GqlUser where
  id : String
  email : String
  name : String
  createdAt : Nat
  updatedAt : Nat
deriving DecidableEq, Repr

/-- Projection of a stored row onto the public `User` object type: exactly
the `@Field`-decorated members of user.entity.ts. -/
def toGraphQLUser (u : StoredUser) : GqlUser :=
  { id := u.id, email := u.email, name := u.name
    createdAt := u.createdAt, updatedAt := u.updatedAt }

namespace UsersService

/-- `UsersService.create`: hashes the password with bcrypt, then inserts.
`hash` is the injected bcrypt dependency; `genId`/`now` model the values the
database generates for `@default(uuid())` / `@default(now())` columns. A
unique-constraint violation on `email` (Prisma P2002) is rethrown as
`DuplicateResourceException`. -/
def create (hash : String → String) (input : CreateUserInput) (genId : String)
    (now : Nat) (db : UsersDB) : SvcOutcome UsersDB StoredUser :=
  let hashedPassword := hash input.password
  if db.any (fun u => u.email = input.email) then
    { result := .error (.duplicateResource "Email"), db := db
      ops := [.createRow "user"] }
  else
    let newUser : StoredUser :=
      { id := genId, email := input.email, name := input.name
        password := hashedPassword, createdAt := now, updatedAt := now }
    { result := .ok newUser, db := db ++ [newUser], ops := [.createRow "user"] }

/-- `UsersService.findAll`: `prisma.user.findMany()`. -/
def findAll (db : UsersDB) : SvcOutcome UsersDB (List StoredUser) :=
  { result := .ok db, db := db, ops := [.findMany "user"] }

/-- `UsersService.findOne`: validates the UUID format (throwing
`InvalidFormatException('ID', id)` before touching the database), then
`prisma.user.findUnique`, resolving `null` when no row matches. -/
def findOne (id : String) (db : UsersDB) : SvcOutcome UsersDB (Option StoredUser) :=
  if !isValidUUID id then
    { result := .error (.invalidFormat "ID" id), db := db, ops := [] }
  else
    { result := .ok (db.find? (fun u => u.id = id)), db := db
      ops := [.findUnique "user" id] }

/-- The field update applied by `prisma.user.update`: present input fields
replace the stored ones, `updatedAt` is refreshed by `@updatedAt`. -/
def applyUserUpdate (u : StoredUser) (input : UpdateUserInput) (now : Nat) :
    StoredUser :=
  { id := u.id
    email := input.email.getD u.email
    name := input.name.getD u.name
    password := input.password.getD u.password
    createdAt := u.createdAt
    updatedAt := now }

/-- `UsersService.update`: UUID guard, existence check (throwing
`ResourceNotFoundException('User', id)` with no write issued), bcrypt-hash of
the password when one is supplied, then `prisma.user.update` with the email
unique-constraint violation rethrown as `DuplicateResourceException`.
The hashing branch is the JavaScript truthiness test
`if (updateUserInput.password)`: an absent password and the empty string are
both falsy, so an empty-string password skips bcrypt and is stored verbatim. -/
def update (hash : String → String) (id : String) (input : UpdateUserInput)
    (now : Nat) (db : UsersDB) : SvcOutcome UsersDB StoredUser :=
  if !isValidUUID id then
    { result := .error (.invalidFormat "ID" id), db := db, ops := [] }
  else
    match db.find? (fun u => u.id = id) with
    | none =>
      { result := .error (.resourceNotFound "User" id), db := db
        ops := [.findUnique "user" id] }
    | some user =>
      let input' : UpdateUserInput :=
        match input.password with
        | some p =>
          if p ≠ "" then { input with password := some (hash p) } else input
        | none => input
      if db.any (fun v => v.id ≠ id ∧ input'.email = some v.email) then
        { result := .error (.duplicateResource "Email"), db := db
          ops := [.findUnique "user" id, .updateRow "user" id] }
      else
        let user' := applyUserUpdate user input' now
        { result := .ok user'
          db := db.map (fun u => if u.id = id then user' else u)
          ops := [.findUnique "user" id, .updateRow "user" id] }

/-- `UsersService.remove`: UUID guard, existence check (throwing
`ResourceNotFoundException('User', id)` with no write issued), then
`prisma.user.delete`. -/
def remove (id : String) (db : UsersDB) : SvcOutcome UsersDB StoredUser :=
  if !isValidUUID id then
    { result := .error (.invalidFormat "ID" id), db := db, ops := [] }
  else
    match db.find? (fun u => u.id = id) with
    | none =>
      { result := .error (.resourceNotFound "User" id), db := db
        ops := [.findUnique "user" id] }
    | some user =>
      { result := .ok user
        db := db.filter (fun u => u.id ≠ id)
        ops := [.findUnique "user" id, .deleteRow "user" id] }

end UsersService

/-! ## Users resolver (users.resolver.ts) -/

/-- An entity representation `{__typename, id}` as received by
`resolveReference`. The `id` member is optional because a malformed
representation may omit the declared key field (JavaScript then reads
`undefined`). -/
structure EntityRepresentation where
  typename : String
  id : Option String
deriving DecidableEq, Repr

namespace UsersResolver

/-- `UsersResolver.resolveReference`: delegates directly to
`UsersService.findOne(reference.id)`. A missing `id` member is JavaScript
`undefined`, which `RegExp.test` coerces to the string `"undefined"`. -/
def resolveReference (reference : EntityRepresentation) (db : UsersDB) :
    SvcOutcome UsersDB (Option StoredUser) :=
  UsersService.findOne (reference.id.getD "undefined") db

end UsersResolver

/-! ## Products service data model -/

/-- A row of the products database (Prisma `Product` model). The `price`
float is carried opaquely (no arithmetic is performed on it anywhere in the
services), so it is modelled as an integer number of currency units. -/
structure StoredProduct where
  id : String
  name : String
  description : String
  price : Int
  sku : String
  stock : Int
  userId : String
  createdAt : Nat
  updatedAt : Nat
deriving DecidableEq, Repr

/-- The products-service database. -/
abbrev ProductsDB := List StoredProduct

/-- `CreateProductInput` (dto/create-product.input.ts). -/
structure CreateProductInput where
  name : String
  description : String
  price : Int
  sku : String
  stock : Int
  userId : String
deriving DecidableEq, Repr

/-- `UpdateProductInput`: `PartialType(CreateProductInput)` (the `id` is
passed to `ProductsService.update` separately, as in the resolver). -/
structure UpdateProductInput where
  name : Option String := none
  description : Option String := none
  price : Option Int := none
  sku : Option String := none
  stock : Option Int := none
  userId : Option String := none
deriving DecidableEq, Repr

namespace ProductsService

/-- `ProductsService.create`: validates the `userId` UUID format (throwing
`InvalidFormatException('user ID', userId)` before touching the database),
then inserts, rethrowing a P2002 violation on `sku` as
`DuplicateResourceException('SKU')`. -/
def create (input : CreateProductInput) (genId : String) (now : Nat)
    (db : ProductsDB) : SvcOutcome ProductsDB StoredProduct :=
  if !isValidUUID input.userId then
    { result := .error (.invalidFormat "user ID" input.userId), db := db, ops := [] }
  else if db.any (fun p => p.sku = input.sku) then
    { result := .error (.duplicateResource "SKU"), db := db
      ops := [.createRow "product"] }
  else
    let newProduct : StoredProduct :=
      { id := genId, name := input.name, description := input.description
        price := input.price, sku := input.sku, stock := input.stock
        userId := input.userId, createdAt := now, updatedAt := now }
    { result := .ok newProduct, db := db ++ [newProduct]
      ops := [.createRow "product"] }

/-- `ProductsService.findAll`: `prisma.product.findMany()`. -/
def findAll (db : ProductsDB) : SvcOutcome ProductsDB (List StoredProduct) :=
  { result := .ok db, db := db, ops := [.findMany "product"] }

/-- `ProductsService.findOne`: UUID guard (`InvalidFormatException('ID', id)`
before any database access), then `prisma.product.findUnique`, resolving
`null` when no row matches. -/
def findOne (id : String) (db : ProductsDB) :
    SvcOutcome ProductsDB (Option StoredProduct) :=
  if !isValidUUID id then
    { result := .error (.invalidFormat "ID" id), db := db, ops := [] }
  else
    { result := .ok (db.find? (fun p => p.id = id)), db := db
      ops := [.findUnique "product" id] }

/-- `ProductsService.findByUser`: UUID guard
(`InvalidFormatException('user ID', userId)` before any database access),
then `prisma.product.findMany({where: {userId}})`. -/
def findByUser (userId : String) (db : ProductsDB) :
    SvcOutcome ProductsDB (List StoredProduct) :=
  if !isValidUUID userId then
    { result := .error (.invalidFormat "user ID" userId), db := db, ops := [] }
  else
    { result := .ok (db.filter (fun p => p.userId = userId)), db := db
      ops := [.findMany "product"] }

/-- The field update applied by `prisma.product.update`. -/
def applyProductUpdate (p : StoredProduct) (input : UpdateProductInput)
    (now : Nat) : StoredProduct :=
  { id := p.id
    name := input.name.getD p.name
    description := input.description.getD p.description
    price := input.price.getD p.price
    sku := input.sku.getD p.sku
    stock := input.stock.getD p.stock
    userId := input.userId.getD p.userId
    createdAt := p.createdAt
    updatedAt := now }

/-- `ProductsService.update`: UUID guard on `id`, existence check (throwing
`ResourceNotFoundException('Product', id)` with no write issued), UUID guard
on a supplied `userId` (format only — the users service is the source of
truth for existence), then `prisma.product.update` with the `sku`
unique-constraint violation rethrown as `DuplicateResourceException`.
The guard is the JavaScript truthiness test
`if (updateProductInput.userId && !isValidUUID(...))`: an absent `userId` and
the empty string are both falsy, so an empty-string `userId` skips the format
check and is stored verbatim. -/
def update (id : String) (input : UpdateProductInput) (now : Nat)
    (db : ProductsDB) : SvcOutcome ProductsDB StoredProduct :=
  if !isValidUUID id then
    { result := .error (.invalidFormat "ID" id), db := db, ops := [] }
  else
    match db.find? (fun p => p.id = id) with
    | none =>
      { result := .error (.resourceNotFound "Product" id), db := db
        ops := [.findUnique "product" id] }
    | some product =>
      match input.userId with
      | some u =>
        if u ≠ "" && !isValidUUID u then
          { result := .error (.invalidFormat "user ID" u), db := db
            ops := [.findUnique "product" id] }
        else
          if db.any (fun q => q.id ≠ id ∧ input.sku = some q.sku) then
            { result := .error (.duplicateResource "SKU"), db := db
              ops := [.findUnique "product" id, .updateRow "product" id] }
          else
            let product' := applyProductUpdate product input now
            { result := .ok product'
              db := db.map (fun p => if p.id = id then product' else p)
              ops := [.findUnique "product" id, .updateRow "product" id] }
      | none =>
        if db.any (fun q => q.id ≠ id ∧ input.sku = some q.sku) then
          { result := .error (.duplicateResource "SKU"), db := db
            ops := [.findUnique "product" id, .updateRow "product" id] }
        else
          let product' := applyProductUpdate product input now
          { result := .ok product'
            db := db.map (fun p => if p.id = id then product' else p)
            ops := [.findUnique "product" id, .updateRow "product" id] }

/-- `ProductsService.remove`: UUID guard, existence check (throwing
`ResourceNotFoundException('Product', id)` with no write issued), then
`prisma.product.delete`. -/
def remove (id : String) (db : ProductsDB) : SvcOutcome ProductsDB StoredProduct :=
  if !isValidUUID id then
    { result := .error (.invalidFormat "ID" id), db := db, ops := [] }
  else
    match db.find? (fun p => p.id = id) with
    | none =>
      { result := .error (.resourceNotFound "Product" id), db := db
        ops := [.findUnique "product" id] }
    | some product =>
      { result := .ok product
        db := db.filter (fun p => p.id ≠ id)
        ops := [.findUnique "product" id, .deleteRow "product" id] }

end ProductsService

/-! ## The products service's `User` extension resolver (user.resolver.ts) -/

/-- A cross-service entity reference `{__typename: 'User', id}` as emitted in
`toGraphQLProduct` for the `user` field of a product. -/
structure GqlUserRef where
  typename : String
  id : String
deriving DecidableEq, Repr

/-- The GraphQL `Product` object as assembled by
`UserResolver.toGraphQLProduct`: every stored column plus the `user`
entity reference. -/
structure GqlProduct where
  typename : String
  id : String
  name : String
  description : String
  price : Int
  sku : String
  stock : Int
  userId : String
  createdAt : Nat
  updatedAt : Nat
  user : GqlUserRef
deriving DecidableEq, Repr

namespace UserResolver

/-- `UserResolver.toGraphQLProduct`: transforms a Prisma product row into the
generated GraphQL shape, emitting `user: {__typename: 'User', id: userId}` as
the cross-service reference for the product's user. -/
def toGraphQLProduct (prismaProduct : StoredProduct) : GqlProduct :=
  { typename := "Product"
    id := prismaProduct.id
    name := prismaProduct.name
    description := prismaProduct.description
    price := prismaProduct.price
    sku := prismaProduct.sku
    stock := prismaProduct.stock
    userId := prismaProduct.userId
    createdAt := prismaProduct.createdAt
    updatedAt := prismaProduct.updatedAt
    user := { typename := "User", id := prismaProduct.userId } }

/-- `UserResolver.products`: the `@ResolveField` extending the federated
`User` type inside the products service — fetches the parent user's products
through `ProductsService.findByUser(user.id)` and maps each row through
`toGraphQLProduct`. The parent `user` argument carries only the key field
`id` delivered by the gateway. -/
def products (user : GqlUserRef) (db : ProductsDB) :
    SvcOutcome ProductsDB (List GqlProduct) :=
  let out := ProductsService.findByUser user.id db
  { result := out.result.map (fun ps => ps.map toGraphQLProduct)
    db := out.db
    ops := out.ops }

end UserResolver

/-! ## Federation engine: schema registry and supergraph composer

The query-planning/execution engine is not implemented in the repository
(composition and planning are delegated to the Apollo gateway's
`IntrospectAndCompose`); the definitions below are modelled from the design
specification and are used to settle the specification's engine-level
properties. -/

/-- Modelled from the spec: one field of a subgraph type, with the ownership
flag (`owned` vs `external`, the `@external` directive). `typeName` is the
named type of the field's value. -/
structure SubgraphField where
  name : String
  typeName : String
  external : Bool
deriving DecidableEq, Repr

/-- Modelled from the spec: one type declared by a subgraph, with its
`@extends` marker and its `@key` field set (the `EntityKey`). -/
structure SubgraphType where
  name : String
  isExtension : Bool
  keyFields : List String
  fields : List SubgraphField
deriving DecidableEq, Repr

/-- Modelled from the spec: `SubgraphSchema` — one per owned service, with a
unique service name. -/
structure SubgraphSchema where
  name : String
  types : List SubgraphType
deriving DecidableEq, Repr

/-- Modelled from the spec: one field of the composed supergraph, tagged with
its source service. -/
structure ComposedField where
  name : String
  typeName : String
  sourceService : String
deriving DecidableEq, Repr

/-- Modelled from the spec: one type of the composed supergraph — the owning
service, the full field list with source-service tags, and the key. -/
structure ComposedType where
  name : String
  owner : String
  keyFields : List String
  fields : List ComposedField
deriving DecidableEq, Repr, Inhabited

/-- Modelled from the spec: `ComposedSupergraph`, the merged read-only view. -/
structure ComposedSupergraph where
  types : List ComposedType
deriving DecidableEq, Repr

/-- Modelled from the spec: one violation found by the composer, which
enumerates every violation, not just the first. -/
inductive CompositionViolation where
  | keyMismatch (typeName : String) (service : String)
  | fieldCollision (typeName : String) (fieldName : String)
  | noOwner (typeName : String)
  | multipleOwners (typeName : String)
deriving DecidableEq, Repr

/-- Modelled from the spec: `CompositionError` — the full list of violations
of one failed composition attempt. -/
abbrev CompositionError := List CompositionViolation

/-- The root operation type, merged across all subgraphs rather than owned by
any one of them. -/
def rootQueryType : String := "Query"

/-- Lexicographic order on character lists, by code point. -/
def charListLe : List Char → List Char → Bool
  | [], _ => true
  | _ :: _, [] => false
  | a :: as, b :: bs =>
    if a.toNat < b.toNat then true
    else if b.toNat < a.toNat then false
    else charListLe as bs

/-- Lexicographic order on strings, by code point. -/
def strLeb (s t : String) : Bool :=
  charListLe s.data t.data

/-- Insertion step of the canonical keyed sort used throughout composition
and planning (insertion sort, so that it evaluates by definitional
unfolding). -/
def insertSortedBy {α : Type} (key : α → String) (a : α) :
    List α → List α
  | [] => [a]
  | b :: rest =>
    if strLeb (key a) (key b) then a :: b :: rest
    else b :: insertSortedBy key a rest

/-- Canonical keyed sort: lexicographic by `key`, per the spec's
reproducible-ordering requirement. -/
def sortedBy {α : Type} (key : α → String) : List α → List α
  | [] => []
  | a :: rest => insertSortedBy key a (sortedBy key rest)

/-- Deterministic canonical order of the registered subgraphs: lexicographic
by (unique) service name. -/
def sortSchemas (ss : List SubgraphSchema) : List SubgraphSchema :=
  sortedBy SubgraphSchema.name ss

/-- All declarations of type `tyName` across the (sorted) subgraphs, tagged
with the declaring service. -/
def declsOf (sorted : List SubgraphSchema) (tyName : String) :
    List (String × SubgraphType) :=
  sorted.filterMap (fun s => (s.types.find? (fun ty => ty.name = tyName)).map
    (fun ty => (s.name, ty)))

/-- The field names a declaration contributes as owned (non-`@external`). -/
def ownedFieldNames (d : String × SubgraphType) : List String :=
  (d.2.fields.filter (fun f => !f.external)).map (fun f => f.name)

/-- Composer validation for one type: (c) a type with no non-extension
declaration has no resolvable owner, a type with two has conflicting owners
(the root `Query` type is exempt — its fields are merged across services);
(b) two services must not both own the same field; (a) every extender must
declare exactly the owner's key field set. -/
def violationsFor (sorted : List SubgraphSchema) (tyName : String) :
    List CompositionViolation :=
  let decls := declsOf sorted tyName
  let owners := decls.filter (fun d => !d.2.isExtension)
  let extenders := decls.filter (fun d => d.2.isExtension)
  let ownershipViols : List CompositionViolation :=
    if tyName = rootQueryType then []
    else if owners.length = 0 then [.noOwner tyName]
    else if 2 ≤ owners.length then [.multipleOwners tyName]
    else []
  let allOwned := decls.flatMap ownedFieldNames
  let collisionViols : List CompositionViolation :=
    (allOwned.filter (fun f => 2 ≤ allOwned.count f)).dedup.map
      (fun f => .fieldCollision tyName f)
  let keyViols : List CompositionViolation :=
    match owners.head? with
    | none => []
    | some ow =>
      (extenders.filter (fun d => d.2.keyFields ≠ ow.2.keyFields)).map
        (fun d => .keyMismatch tyName d.1)
  ownershipViols ++ collisionViols ++ keyViols

/-- Builds the composed view of one (validated) type: the owner, the owner's
key, and every owned field of every declaring service tagged with its source
service, in canonical (service-sorted, then declaration) order. -/
def buildComposedType (sorted : List SubgraphSchema) (tyName : String) :
    ComposedType :=
  let decls := declsOf sorted tyName
  let owners := decls.filter (fun d => !d.2.isExtension)
  { name := tyName
    owner := ((owners.head?).map (fun d => d.1)).getD ""
    keyFields := ((owners.head?).map (fun d => d.2.keyFields)).getD []
    fields := decls.flatMap (fun d =>
      (d.2.fields.filter (fun f => !f.external)).map
        (fun f => { name := f.name, typeName := f.typeName, sourceService := d.1 })) }

/-- The canonically ordered list of type names declared across the subgraphs. -/
def composedTypeNames (sorted : List SubgraphSchema) : List String :=
  sortedBy id ((sorted.flatMap (fun s => s.types.map (fun ty => ty.name))).dedup)

/-- Modelled from the spec: `compose` over an already canonically sorted
subgraph list — validates every type, returning every violation found, and
otherwise builds the merged supergraph. Pure function of its input. -/
def composeSorted (sorted : List SubgraphSchema) :
    Except CompositionError ComposedSupergraph :=
  let tns := composedTypeNames sorted
  let viols := tns.flatMap (violationsFor sorted)
  if viols.isEmpty then
    .ok { types := tns.map (buildComposedType sorted) }
  else
    .error viols

/-- Modelled from the spec: `compose(all SubgraphSchema) → ComposedSupergraph`
or `CompositionError`. The registered subgraphs form a set (service names are
unique); composition canonicalizes their order first, so identical inputs —
in any registration order — produce identical composed graphs. -/
def compose (ss : List SubgraphSchema) : Except CompositionError ComposedSupergraph :=
  composeSorted (sortSchemas ss)

/-! ## Federation engine: query planner -/

/-- Modelled from the spec: the client's requested field tree. A `Selection`
is a selection set (a list of `SelectionNode`s in the spec's words),
represented as a first-order chain so that every traversal below is plain
structural recursion: `field name args alias children rest` is one selection
node (with its child selection set `children`) followed by its sibling
selections `rest`. -/
inductive Selection where
  | nil : Selection
  | field (name : String) (args : List (String × String))
      (aliasName : Option String) (children : Selection) (rest : Selection)
deriving DecidableEq, Repr, Inhabited

/-- Modelled from the spec: `PlanningError` — unknown field or unresolvable
ownership; fatal to the single request. -/
inductive PlanningError where
  | unknownField (typeName : String) (fieldName : String)
  | unknownType (typeName : String)
deriving DecidableEq, Repr

/-- Field lookup on a composed type, encoding the spec's tie-break rule: when
an ambiguous graph carries the same field from several services, the declared
owner's entry is preferred over any extender's. -/
def ComposedType.lookupField (ty : ComposedType) (f : String) :
    Option ComposedField :=
  match ty.fields.find? (fun fl => fl.name = f && fl.sourceService = ty.owner) with
  | some fl => some fl
  | none => ty.fields.find? (fun fl => fl.name = f)

/-- Type lookup on the composed supergraph. -/
def ComposedSupergraph.findType (g : ComposedSupergraph) (tyName : String) :
    Option ComposedType :=
  g.types.find? (fun ty => ty.name = tyName)

/-- Field lookup through the supergraph. -/
def ComposedSupergraph.lookupField (g : ComposedSupergraph) (tyName f : String) :
    Option ComposedField :=
  (g.findType tyName).bind (fun ty => ty.lookupField f)

/-- The sub-selection of `ss` a single service can answer: keeps exactly the
fields whose source is `svc`, recursively. -/
def restrictToService (g : ComposedSupergraph) (svc : String) (tyName : String)
    (ss : Selection) : Selection :=
  match ss with
  | .nil => .nil
  | .field f args al cs rest =>
    match g.lookupField tyName f with
    | some fi =>
      if fi.sourceService = svc then
        .field f args al (restrictToService g svc fi.typeName cs)
          (restrictToService g svc tyName rest)
      else restrictToService g svc tyName rest
    | none => restrictToService g svc tyName rest

/-- Modelled from the spec: a `PlanStep` before wave assignment — target
service, predecessor step indices, entity-resolution kind and entity type,
response path, and the sub-selection to send. -/
structure StepSpec where
  service : String
  preds : List Nat
  isEntityResolution : Bool
  entityType : Option String
  path : List String
  sel : Selection
deriving DecidableEq, Repr

/-- Modelled from the spec: `PlanStep` — a `StepSpec` with its dependency
wave number. -/
structure PlanStep where
  service : String
  preds : List Nat
  wave : Nat
  isEntityResolution : Bool
  entityType : Option String
  path : List String
  sel : Selection
deriving DecidableEq, Repr, Inhabited

/-- Modelled from the spec: `ExecutionPlan` — the ordered step list; steps
are listed in creation order (predecessors always precede their dependents)
and carry their wave numbers. -/
structure ExecutionPlan where
  steps : List PlanStep
deriving DecidableEq, Repr

/-- Planner recursion (spec §4.3 steps 2–3): walks a selection set that is
being resolved by `svc` inside the step at index `stepIdx`. A selected field
whose source is another service spawns a dependent entity-resolution step
whose predecessor is the current step; recursion then continues inside the
new step for its children and inside the current step for the remaining
siblings. -/
def planSels (g : ComposedSupergraph) (tyName svc : String) (stepIdx : Nat)
    (path : List String) (specs : List StepSpec) (ss : Selection) :
    Except PlanningError (List StepSpec) :=
  match ss with
  | .nil => .ok specs
  | .field f args al cs rest =>
    match g.lookupField tyName f with
    | none => .error (.unknownField tyName f)
    | some fi =>
      if fi.sourceService = svc then
        match planSels g fi.typeName svc stepIdx (path ++ [f]) specs cs with
        | .error e => .error e
        | .ok specs1 => planSels g tyName svc stepIdx path specs1 rest
      else
        let newIdx := specs.length
        let newSpec : StepSpec :=
          { service := fi.sourceService
            preds := [stepIdx]
            isEntityResolution := true
            entityType := some tyName
            path := path ++ [f]
            sel := .field f args al
              (restrictToService g fi.sourceService fi.typeName cs) .nil }
        match planSels g fi.typeName fi.sourceService newIdx (path ++ [f])
            (specs ++ [newSpec]) cs with
        | .error e => .error e
        | .ok specs1 => planSels g tyName svc stepIdx path specs1 rest

/-- The service answering one root field name, per the composed graph. -/
def rootServiceOf (g : ComposedSupergraph) (f : String) : Option String :=
  (g.lookupField rootQueryType f).map (fun fi => fi.sourceService)

/-- Collects the answering service of every root field, failing with
`PlanningError` on the first unknown root field. -/
def collectRootServices (g : ComposedSupergraph) :
    Selection → Except PlanningError (List String)
  | .nil => .ok []
  | .field f _ _ _ rest =>
    match rootServiceOf g f with
    | none => .error (.unknownField rootQueryType f)
    | some svc =>
      match collectRootServices g rest with
      | .error e => .error e
      | .ok svcs => .ok (svc :: svcs)

/-- The root fields one service answers (spec §4.3 step 1's grouping). -/
def rootFieldsOf (g : ComposedSupergraph) (rootFields : Selection)
    (svc : String) : Selection :=
  match rootFields with
  | .nil => .nil
  | .field f args al cs rest =>
    if rootServiceOf g f = some svc then
      .field f args al cs (rootFieldsOf g rest svc)
    else rootFieldsOf g rest svc

/-- One root `PlanStep` spec (spec §4.3 step 1): a root-operation step for one
service — no predecessors, hence wave 0 — carrying the service's restricted
root selection. -/
def rootStepSpec (g : ComposedSupergraph) (rootFields : Selection)
    (svc : String) : StepSpec :=
  { service := svc, preds := [], isEntityResolution := false
    entityType := none, path := []
    sel := restrictToService g svc rootQueryType (rootFieldsOf g rootFields svc) }

/-- Planner root phase (spec §4.3 step 1): one root step per answering
service — no predecessors, wave 0 — in deterministic lexicographic service
order, then the dependent-step recursion for each group. -/
def planRootGroups (g : ComposedSupergraph) (rootFields : Selection) :
    List String → List StepSpec → Except PlanningError (List StepSpec)
  | [], specs => .ok specs
  | svc :: rest, specs =>
    match planSels g rootQueryType svc specs.length []
        (specs ++ [rootStepSpec g rootFields svc])
        (rootFieldsOf g rootFields svc) with
    | .error e => .error e
    | .ok specs1 => planRootGroups g rootFields rest specs1

/-- The wave of a step whose predecessors already carry their waves:
`0` with no predecessors, otherwise `1 + max(predecessor waves)`. -/
def waveFor (acc : List PlanStep) (preds : List Nat) : Nat :=
  match preds with
  | [] => 0
  | ps => 1 + (ps.map (fun i => (acc.getD i default).wave)).foldl max 0

/-- Wave-assignment pass: steps are numbered in creation order, so every
predecessor is already assigned when its dependent is reached. -/
def assignWavesGo (acc : List PlanStep) : List StepSpec → List PlanStep
  | [] => acc
  | sp :: rest =>
    let st : PlanStep :=
      { service := sp.service, preds := sp.preds,
        wave := waveFor acc sp.preds,
        isEntityResolution := sp.isEntityResolution,
        entityType := sp.entityType, path := sp.path, sel := sp.sel }
    assignWavesGo (acc ++ [st]) rest

/-- Assigns dependency waves to the planner's step list. -/
def assignWaves (specs : List StepSpec) : List PlanStep :=
  assignWavesGo [] specs

/-- Modelled from the spec: `plan(SelectionNode root, ComposedSupergraph) →
ExecutionPlan` or `PlanningError`. The root selection node is represented by
its selection set `rootFields`. -/
def plan (g : ComposedSupergraph) (rootFields : Selection) :
    Except PlanningError ExecutionPlan :=
  match collectRootServices g rootFields with
  | .error e => .error e
  | .ok svcsRaw =>
    let svcs := sortedBy id (svcsRaw.dedup)
    match planRootGroups g rootFields svcs [] with
    | .error e => .error e
    | .ok specs => .ok { steps := assignWaves specs }

/-- Modelled from the spec: the two failure classes that abort a whole
operation — `CompositionError` at composition time, `PlanningError` at
planning time. Step-execution failures never appear here. -/
inductive EngineFailure where
  | composition (e : CompositionError)
  | planning (e : PlanningError)
deriving DecidableEq, Repr

/-- The compose-then-plan pipeline: the only two abort points of the engine. -/
def planQuery (ss : List SubgraphSchema) (rootFields : Selection) :
    Except EngineFailure ExecutionPlan :=
  match compose ss with
  | .error e => .error (.composition e)
  | .ok g =>
    match plan g rootFields with
    | .error e => .error (.planning e)
    | .ok p => .ok p

/-! ## Federation engine: plan executor and response merging -/

/-- A JSON-like result value tree returned by a subgraph. -/
inductive Json where
  | null
  | str (s : String)
  | num (n : Int)
  | arr (xs : List Json)
  | obj (fields : List (String × Json))

/-- Modelled from the spec: the `kind` tag of an error entry. -/
inductive FailureKind where
  | stepFailure
  | unreachable
deriving DecidableEq, Repr

/-- Modelled from the spec: one `(path, message, kind)` entry of the
`errors` list of a `MergedResponse`. -/
structure ResponseError where
  path : List String
  message : String
  kind : FailureKind
deriving DecidableEq, Repr

/-- Modelled from the spec: `MergedResponse` — per the spec's design note,
partial results are kept arena-style, keyed by response path and merged by
path: one `(response path, value-or-null)` entry per plan step, plus the
aggregated errors list. -/
structure MergedResponse where
  entries : List (List String × Option Json)
  errors : List ResponseError

/-- Modelled from the spec: the Subgraph Executor's transport boundary —
one outbound call per step, returning the step's value tree or a typed
failure message. The step index is passed so that distinct steps may
observe distinct transport outcomes. -/
abbrev Transport := Nat → PlanStep → Except String Json

/-- Orchestrator recursion: `k` is the index of the next step, `failed` the
indices that failed or were never dispatched. A step whose predecessors all
succeeded is dispatched; a step with a failed predecessor is marked
unreachable — null entry plus error — without being dispatched. A failed
dispatch contributes a null entry and a `stepFailure` error and poisons its
dependents, never its independent siblings. -/
def runGo (t : Transport) (k : Nat) (failed : List Nat)
    (entries : List (List String × Option Json)) (errors : List ResponseError) :
    List PlanStep → MergedResponse
  | [] => { entries := entries, errors := errors }
  | st :: rest =>
    if st.preds.any (fun i => failed.contains i) then
      runGo t (k + 1) (k :: failed) (entries ++ [(st.path, none)])
        (errors ++ [{ path := st.path, message := "unreachable: predecessor failed"
                      kind := .unreachable }]) rest
    else
      match t k st with
      | .ok v => runGo t (k + 1) failed (entries ++ [(st.path, some v)]) errors rest
      | .error m =>
        runGo t (k + 1) (k :: failed) (entries ++ [(st.path, none)])
          (errors ++ [{ path := st.path, message := m, kind := .stepFailure }]) rest

/-- Modelled from the spec: `run(ExecutionPlan) → MergedResponse`. Steps are
dispatched in creation order (predecessors always precede dependents, so
dependency order is respected); the result is total — step failures are
contained, never escalated to an abort. -/
def run (p : ExecutionPlan) (t : Transport) : MergedResponse :=
  runGo t 0 [] [] [] p.steps

/-- The full engine pipeline: compose, plan, execute. By construction the
only aborts are the composition and planning failures; once a plan exists
the execution always yields a `MergedResponse`. -/
def executeQuery (ss : List SubgraphSchema) (rootFields : Selection)
    (t : Transport) : Except EngineFailure MergedResponse :=
  match planQuery ss rootFields with
  | .error e => .error e
  | .ok p => .ok (run p t)

/-! ## The two registered subgraphs of this program

Translated from the entity declarations: the users service owns `User` with
`@key(fields: "id")` (user.entity.ts); the products service owns `Product`,
declares the root products queries, and extends `User` (`@extends`,
`@key(fields: "id")`, `@external id`, plus the `products` field). -/

/-- The users subgraph: root fields `user`/`users` and the owned `User`
entity with key `id` and fields id, email, name, createdAt, updatedAt. -/
def usersSubgraph : SubgraphSchema :=
  { name := "users"
    types := [
      { name := rootQueryType, isExtension := false, keyFields := []
        fields := [
          { name := "user", typeName := "User", external := false },
          { name := "users", typeName := "User", external := false }] },
      { name := "User", isExtension := false, keyFields := ["id"]
        fields := [
          { name := "id", typeName := "ID", external := false },
          { name := "email", typeName := "String", external := false },
          { name := "name", typeName := "String", external := false },
          { name := "createdAt", typeName := "DateTime", external := false },
          { name := "updatedAt", typeName := "DateTime", external := false }] }] }

/-- The products subgraph's `User` extension with the given key declaration
(the program declares `@key(fields: "id")`; other keys are used to state
what composition does when the extender's key disagrees with the owner's). -/
def productsUserExtension (key : List String) : SubgraphType :=
  { name := "User", isExtension := true, keyFields := key
    fields := [
      { name := "id", typeName := "ID", external := true },
      { name := "products", typeName := "Product", external := false }] }

/-- The products subgraph, parametrized by the `User`-extension key. -/
def productsSubgraphWithKey (key : List String) : SubgraphSchema :=
  { name := "products"
    types := [
      { name := rootQueryType, isExtension := false, keyFields := []
        fields := [
          { name := "product", typeName := "Product", external := false },
          { name := "products", typeName := "Product", external := false },
          { name := "productsByUser", typeName := "Product", external := false }] },
      { name := "Product", isExtension := false, keyFields := ["id"]
        fields := [
          { name := "id", typeName := "ID", external := false },
          { name := "name", typeName := "String", external := false },
          { name := "description", typeName := "String", external := false },
          { name := "price", typeName := "Float", external := false },
          { name := "sku", typeName := "String", external := false },
          { name := "stock", typeName := "Int", external := false },
          { name := "userId", typeName := "String", external := false },
          { name := "createdAt", typeName := "DateTime", external := false },
          { name := "updatedAt", typeName := "DateTime", external := false },
          { name := "user", typeName := "User", external := false }] },
      productsUserExtension key ] }

/-- The products subgraph as the program declares it (extension key `id`). -/
def productsSubgraph : SubgraphSchema := productsSubgraphWithKey ["id"]

/-- The composed supergraph of the two registered subgraphs, as `compose`
builds it (`exampleSupergraph_eq` checks the equality); spelled out as a
literal so that proofs over it evaluate cheaply. -/
def exampleSupergraph : ComposedSupergraph :=
  { types := [
      { name := "Product", owner := "products", keyFields := ["id"]
        fields := [
          { name := "id", typeName := "ID", sourceService := "products" },
          { name := "name", typeName := "String", sourceService := "products" },
          { name := "description", typeName := "String", sourceService := "products" },
          { name := "price", typeName := "Float", sourceService := "products" },
          { name := "sku", typeName := "String", sourceService := "products" },
          { name := "stock", typeName := "Int", sourceService := "products" },
          { name := "userId", typeName := "String", sourceService := "products" },
          { name := "createdAt", typeName := "DateTime", sourceService := "products" },
          { name := "updatedAt", typeName := "DateTime", sourceService := "products" },
          { name := "user", typeName := "User", sourceService := "products" }] },
      { name := "Query", owner := "products", keyFields := []
        fields := [
          { name := "product", typeName := "Product", sourceService := "products" },
          { name := "products", typeName := "Product", sourceService := "products" },
          { name := "productsByUser", typeName := "Product", sourceService := "products" },
          { name := "user", typeName := "User", sourceService := "users" },
          { name := "users", typeName := "User", sourceService := "users" }] },
      { name := "User", owner := "users", keyFields := ["id"]
        fields := [
          { name := "products", typeName := "Product", sourceService := "products" },
          { name := "id", typeName := "ID", sourceService := "users" },
          { name := "email", typeName := "String", sourceService := "users" },
          { name := "name", typeName := "String", sourceService := "users" },
          { name := "createdAt", typeName := "DateTime", sourceService := "users" },
          { name := "updatedAt", typeName := "DateTime", sourceService := "users" }] }] }

/-- The literal above is exactly the composed view of the two subgraphs. -/
lemma exampleSupergraph_eq :
    compose [usersSubgraph, productsSubgraph] = .ok exampleSupergraph := rfl

/-- The federated example query `{ user(id:"u1") { name products { name } } }`
of the spec's Scenario A, as a parsed selection set. -/
def exampleQuery : Selection :=
  .field "user" [("id", "u1")] none
    (.field "name" [] none .nil
      (.field "products" [] none (.field "name" [] none .nil .nil) .nil)) .nil

/-- A two-root-service query: `{ user(id:"u1"){name} products{name} }` —
the spec's Scenario C shape. -/
def twoRootQuery : Selection :=
  .field "user" [("id", "u1")] none (.field "name" [] none .nil .nil)
    (.field "products" [] none (.field "name" [] none .nil .nil) .nil)

/-! ## Claim theorems -/

/-- C1: for every entity representation `{__typename, id}` whose `id` passes
the program's syntactic UUID validity check but names no stored user, the
users service's reference resolver (`UsersResolver.resolveReference`,
delegating to `UsersService.findOne`) resolves `null` — it raises no error,
and the single `Option` result channel carries no distinction between "not
found" and any transient condition. -/
theorem resolveReference_missing_entity_null (id : String) (db : UsersDB)
    (hvalid : isValidUUID id = true) (hmissing : ∀ u ∈ db, u.id ≠ id) :
    (UsersResolver.resolveReference ⟨"User", some id⟩ db).result = .ok none ∧
    UsersResolver.resolveReference ⟨"User", some id⟩ db =
      UsersService.findOne id db := by
  refine ⟨?_, rfl⟩
  unfold UsersResolver.resolveReference UsersService.findOne
  simp only [Option.getD_some, hvalid, Bool.not_true, Bool.false_eq_true,
    if_false, Except.ok.injEq]
  exact List.find?_eq_none.mpr (fun u hu => by simpa using hmissing u hu)

/-- C1 witness: a well-formed v4 UUID against the empty users table. -/
theorem resolveReference_missing_entity_null_witness :
    (UsersResolver.resolveReference
      ⟨"User", some "550e8400-e29b-41d4-a716-446655440000"⟩ []).result = .ok none :=
  (resolveReference_missing_entity_null "550e8400-e29b-41d4-a716-446655440000" []
    (by decide) (by simp)).1

/-- C2 counterexample: at the concrete representation `{__typename: "User"}`
with the declared key field missing, the entity-resolution entry point throws
`InvalidFormatException` — a 400 BadRequest, i.e. a user-facing recoverable
client error and not an internal non-recoverable one, contrary to the claim's
error classification. -/
theorem resolveReference_missing_key_error_is_user_facing :
    (UsersResolver.resolveReference ⟨"User", none⟩ []).result =
      .error (.invalidFormat "ID" "undefined") ∧
    (ServiceError.invalidFormat "ID" "undefined").isUserFacingClientError = true ∧
    (ServiceError.invalidFormat "ID" "undefined").isInternalServerError = false :=
  ⟨rfl, rfl, rfl⟩

/-- C2 (amended): for every representation whose key field is missing or
malformed, `UsersResolver.resolveReference` fails fast — before performing
any lookup, leaving the database untouched — with `InvalidFormatException`,
a user-facing recoverable 400 error (not an internal one). -/
theorem resolveReference_malformed_key_fails_fast (ref : EntityRepresentation)
    (db : UsersDB) (hbad : isValidUUID (ref.id.getD "undefined") = false) :
    ∃ v, (UsersResolver.resolveReference ref db).result =
        .error (.invalidFormat "ID" v) ∧
      (ServiceError.invalidFormat "ID" v).statusCode = 400 ∧
      (ServiceError.invalidFormat "ID" v).isUserFacingClientError = true ∧
      (UsersResolver.resolveReference ref db).ops = [] ∧
      (UsersResolver.resolveReference ref db).db = db := by
  refine ⟨ref.id.getD "undefined", ?_, rfl, rfl, ?_, ?_⟩ <;>
    unfold UsersResolver.resolveReference UsersService.findOne <;>
    simp [hbad]

/-- C2 witness: the representation with the key field absent. -/
theorem resolveReference_malformed_key_fails_fast_witness :
    isValidUUID (((⟨"User", none⟩ : EntityRepresentation)).id.getD "undefined") = false ∧
    ∃ v, (UsersResolver.resolveReference ⟨"User", none⟩ []).result =
        .error (.invalidFormat "ID" v) ∧
      (ServiceError.invalidFormat "ID" v).statusCode = 400 ∧
      (ServiceError.invalidFormat "ID" v).isUserFacingClientError = true ∧
      (UsersResolver.resolveReference ⟨"User", none⟩ []).ops = [] ∧
      (UsersResolver.resolveReference ⟨"User", none⟩ []).db = [] :=
  ⟨by decide, resolveReference_malformed_key_fails_fast ⟨"User", none⟩ [] (by decide)⟩

/-- C3: for every parent `User` reference carrying the key field `id` (a
stored user's UUID), the extension resolver `UserResolver.products` returns
exactly the products whose `userId` equals the parent's `id`, and each
emitted product's cross-service `user` reference is exactly
`{__typename: "User", id: product.userId}`. -/
theorem userResolver_products_exact (user : GqlUserRef) (db : ProductsDB)
    (hvalid : isValidUUID user.id = true) :
    (UserResolver.products user db).result =
      .ok ((db.filter (fun p => p.userId = user.id)).map
        UserResolver.toGraphQLProduct) ∧
    ∀ gp ∈ (db.filter (fun p => p.userId = user.id)).map
        UserResolver.toGraphQLProduct,
      gp.user = { typename := "User", id := gp.userId } := by
  constructor
  · unfold UserResolver.products ProductsService.findByUser
    simp [hvalid, Except.map]
  · intro gp hgp
    rcases List.mem_map.mp hgp with ⟨p, _, rfl⟩
    rfl

/-- A sample stored product used to instantiate theorems. -/
def sampleProduct : StoredProduct :=
  { id := "7c9e6679-7425-40de-944b-e07fc1f90ae7", name := "Widget"
    description := "", price := 5, sku := "W-1", stock := 3
    userId := "550e8400-e29b-41d4-a716-446655440000"
    createdAt := 0, updatedAt := 0 }

/-- C3 witness: a parent reference with a valid UUID and a one-product table. -/
theorem userResolver_products_exact_witness :
    isValidUUID "550e8400-e29b-41d4-a716-446655440000" = true ∧
    (UserResolver.products ⟨"User", "550e8400-e29b-41d4-a716-446655440000"⟩
      [sampleProduct]).result =
      .ok (([sampleProduct].filter
          (fun p => p.userId = "550e8400-e29b-41d4-a716-446655440000")).map
        UserResolver.toGraphQLProduct) :=
  ⟨by decide,
    (userResolver_products_exact ⟨"User", "550e8400-e29b-41d4-a716-446655440000"⟩
      [sampleProduct] (by decide)).1⟩

/-- C8: every identifier-taking public operation of the two services —
`findOne`, `update`, `remove` on both, `findByUser`, and `create`'s `userId`
— throws `InvalidFormatException` for every id rejected by the program's
UUID validity check, performing no database access in that case, and never
raises that guard's exception for an id the check accepts. -/
theorem uuid_guard_complete (id : String) (udb : UsersDB) (pdb : ProductsDB)
    (hash : String → String) (uin : UpdateUserInput) (pin : CreateProductInput)
    (pup : UpdateProductInput) (genId : String) (now : Nat) :
    (isValidUUID id = false →
      ((UsersService.findOne id udb).result = .error (.invalidFormat "ID" id) ∧
        (UsersService.findOne id udb).ops = []) ∧
      ((UsersService.update hash id uin now udb).result = .error (.invalidFormat "ID" id) ∧
        (UsersService.update hash id uin now udb).ops = []) ∧
      ((UsersService.remove id udb).result = .error (.invalidFormat "ID" id) ∧
        (UsersService.remove id udb).ops = []) ∧
      ((ProductsService.findOne id pdb).result = .error (.invalidFormat "ID" id) ∧
        (ProductsService.findOne id pdb).ops = []) ∧
      ((ProductsService.findByUser id pdb).result = .error (.invalidFormat "user ID" id) ∧
        (ProductsService.findByUser id pdb).ops = []) ∧
      ((ProductsService.update id pup now pdb).result = .error (.invalidFormat "ID" id) ∧
        (ProductsService.update id pup now pdb).ops = []) ∧
      ((ProductsService.remove id pdb).result = .error (.invalidFormat "ID" id) ∧
        (ProductsService.remove id pdb).ops = []) ∧
      ((ProductsService.create { pin with userId := id } genId now pdb).result
          = .error (.invalidFormat "user ID" id) ∧
        (ProductsService.create { pin with userId := id } genId now pdb).ops = [])) ∧
    (isValidUUID id = true →
      (UsersService.findOne id udb).result ≠ .error (.invalidFormat "ID" id) ∧
      (UsersService.update hash id uin now udb).result ≠ .error (.invalidFormat "ID" id) ∧
      (UsersService.remove id udb).result ≠ .error (.invalidFormat "ID" id) ∧
      (ProductsService.findOne id pdb).result ≠ .error (.invalidFormat "ID" id) ∧
      (ProductsService.findByUser id pdb).result ≠ .error (.invalidFormat "user ID" id) ∧
      (ProductsService.update id pup now pdb).result ≠ .error (.invalidFormat "ID" id) ∧
      (ProductsService.remove id pdb).result ≠ .error (.invalidFormat "ID" id) ∧
      (ProductsService.create { pin with userId := id } genId now pdb).result
        ≠ .error (.invalidFormat "user ID" id)) := by
  constructor
  · intro hbad
    refine ⟨?_, ?_, ?_, ?_, ?_, ?_, ?_, ?_⟩ <;>
      constructor <;>
      simp [UsersService.findOne, UsersService.update, UsersService.remove,
        ProductsService.findOne, ProductsService.findByUser,
        ProductsService.update, ProductsService.remove, ProductsService.create,
        hbad]
  · intro hvalid
    refine ⟨?_, ?_, ?_, ?_, ?_, ?_, ?_, ?_⟩ <;>
      simp only [UsersService.findOne, UsersService.update, UsersService.remove,
        ProductsService.findOne, ProductsService.findByUser,
        ProductsService.update, ProductsService.remove, ProductsService.create,
        hvalid, Bool.not_true, Bool.false_eq_true, if_false] <;>
      (try split) <;> (try split) <;> (try split) <;> (try split) <;>
      simp

/-- A sample product-creation input used to instantiate theorems. -/
def sampleCreateProductInput : CreateProductInput :=
  { name := "Widget", description := "", price := 5, sku := "W-1", stock := 3
    userId := "550e8400-e29b-41d4-a716-446655440000" }

/-- C8 witness: both guard directions at concrete ids against empty tables. -/
theorem uuid_guard_complete_witness :
    (isValidUUID "not-a-uuid" = false ∧
      (UsersService.findOne "not-a-uuid" []).result =
        .error (.invalidFormat "ID" "not-a-uuid")) ∧
    (isValidUUID "550e8400-e29b-41d4-a716-446655440000" = true ∧
      (UsersService.findOne "550e8400-e29b-41d4-a716-446655440000" []).result ≠
        .error (.invalidFormat "ID" "550e8400-e29b-41d4-a716-446655440000")) :=
  ⟨⟨by decide,
    ((uuid_guard_complete "not-a-uuid" [] [] (fun s => s) {} sampleCreateProductInput
      {} "" 0).1 (by decide)).1.1⟩,
   ⟨by decide,
    ((uuid_guard_complete "550e8400-e29b-41d4-a716-446655440000" [] [] (fun s => s) {}
      sampleCreateProductInput {} "" 0).2 (by decide)).1⟩⟩

/-- C9: for every valid-UUID id naming no existing record, the update and
remove operations of both services throw `ResourceNotFoundException` and
leave the stored data unchanged — no write operation is issued on this error
path. -/
theorem notfound_error_path_atomic (hash : String → String) (id : String)
    (uin : UpdateUserInput) (pup : UpdateProductInput) (now : Nat)
    (udb : UsersDB) (pdb : ProductsDB)
    (hvalid : isValidUUID id = true)
    (hu : ∀ u ∈ udb, u.id ≠ id) (hp : ∀ p ∈ pdb, p.id ≠ id) :
    ((UsersService.update hash id uin now udb).result =
        .error (.resourceNotFound "User" id) ∧
      (UsersService.update hash id uin now udb).db = udb ∧
      ∀ o ∈ (UsersService.update hash id uin now udb).ops, o.isWrite = false) ∧
    ((UsersService.remove id udb).result = .error (.resourceNotFound "User" id) ∧
      (UsersService.remove id udb).db = udb ∧
      ∀ o ∈ (UsersService.remove id udb).ops, o.isWrite = false) ∧
    ((ProductsService.update id pup now pdb).result =
        .error (.resourceNotFound "Product" id) ∧
      (ProductsService.update id pup now pdb).db = pdb ∧
      ∀ o ∈ (ProductsService.update id pup now pdb).ops, o.isWrite = false) ∧
    ((ProductsService.remove id pdb).result = .error (.resourceNotFound "Product" id) ∧
      (ProductsService.remove id pdb).db = pdb ∧
      ∀ o ∈ (ProductsService.remove id pdb).ops, o.isWrite = false) := by
  have hufind : udb.find? (fun u => u.id = id) = none :=
    List.find?_eq_none.mpr (fun u huu => by simpa using hu u huu)
  have hpfind : pdb.find? (fun p => p.id = id) = none :=
    List.find?_eq_none.mpr (fun p hpp => by simpa using hp p hpp)
  refine ⟨?_, ?_, ?_, ?_⟩ <;>
    simp [UsersService.update, UsersService.remove, ProductsService.update,
      ProductsService.remove, hvalid, hufind, hpfind, DbOp.isWrite]

/-- C9 witness: a valid v4 UUID against empty tables. -/
theorem notfound_error_path_atomic_witness :
    isValidUUID "550e8400-e29b-41d4-a716-446655440000" = true ∧
    (UsersService.remove "550e8400-e29b-41d4-a716-446655440000" []).result =
      .error (.resourceNotFound "User" "550e8400-e29b-41d4-a716-446655440000") :=
  ⟨by decide,
    ((notfound_error_path_atomic (fun s => s) "550e8400-e29b-41d4-a716-446655440000"
      {} {} 0 [] [] (by decide) (by simp) (by simp)).2.1).1⟩

/-- A sample stored user used to instantiate theorems. -/
def sampleStoredUser : StoredUser :=
  { id := "550e8400-e29b-41d4-a716-446655440000", email := "a@b.c", name := "A"
    password := "$2a$10$oldhash", createdAt := 0, updatedAt := 0 }

/-- C10 counterexample: updating a user with the empty-string password — a
falsy value for the JavaScript truthiness test `if (updateUserInput.password)`
— bypasses the bcrypt branch, so the stored password is the verbatim `""`
and not the bcrypt hash of the supplied password: the claim's "update stores
only the bcrypt hash" is false at this input (bcrypt digests are never
empty). -/
theorem password_update_empty_not_hashed :
    ¬ (∀ u' ∈ (UsersService.update (fun s => String.append "$2a$10$digest-" s)
          sampleStoredUser.id { password := some "" } 1 [sampleStoredUser]).db,
        u' ∈ [sampleStoredUser] ∨
          u'.password = String.append "$2a$10$digest-" "") := by
  decide

/-- C10 (amended): the plaintext password never reaches the public GraphQL
surface — `UsersService.create` always stores the bcrypt hash, and
`UsersService.update` stores the bcrypt hash of every non-empty supplied
password, while an empty-string password is falsy for the JS truthiness test
guarding the hashing branch and is stored verbatim; the federated `User`
object type exposes no password field, and two runs differing only in the
password input agree on every query result over the `User` type's exposed
fields (the difference flows only into the stored password column). -/
theorem password_confidentiality (hash : String → String)
    (input : CreateUserInput) (genId : String) (now : Nat) (db : UsersDB)
    (id : String) (uin : UpdateUserInput) (p1 p2 : String) :
    ((UsersService.create hash input genId now db).db = db ∨
      ∃ nu : StoredUser, (UsersService.create hash input genId now db).db = db ++ [nu] ∧
        nu.password = hash input.password) ∧
    (∀ u' ∈ (UsersService.update hash id { uin with password := some p1 } now db).db,
      u' ∈ db ∨ u'.password = (if p1 = "" then p1 else hash p1)) ∧
    (∀ (u : StoredUser) (pw : String),
      toGraphQLUser { u with password := pw } = toGraphQLUser u) ∧
    ((UsersService.create hash { input with password := p1 } genId now db).db.map
        toGraphQLUser =
      (UsersService.create hash { input with password := p2 } genId now db).db.map
        toGraphQLUser) ∧
    ((UsersService.create hash { input with password := p1 } genId now db).result.map
        toGraphQLUser =
      (UsersService.create hash { input with password := p2 } genId now db).result.map
        toGraphQLUser) ∧
    ((UsersService.update hash id { uin with password := some p1 } now db).db.map
        toGraphQLUser =
      (UsersService.update hash id { uin with password := some p2 } now db).db.map
        toGraphQLUser) ∧
    ((UsersService.update hash id { uin with password := some p1 } now db).result.map
        toGraphQLUser =
      (UsersService.update hash id { uin with password := some p2 } now db).result.map
        toGraphQLUser) := by
  refine ⟨?_, ?_, fun u pw => rfl, ?_, ?_, ?_, ?_⟩
  · unfold UsersService.create
    split
    · exact Or.inl rfl
    · exact Or.inr ⟨_, rfl, rfl⟩
  · intro u' hu'
    unfold UsersService.update at hu'
    by_cases hv : isValidUUID id
    · simp only [hv, Bool.not_true, Bool.false_eq_true, if_false] at hu'
      rcases hfind : db.find? (fun u => u.id = id) with _ | user <;>
        rw [hfind] at hu'
      · exact Or.inl hu'
      · by_cases hp : p1 = "" <;>
          simp only [hp, ne_eq, not_true_eq_false, not_false_eq_true,
            if_true, if_false, reduceIte] at hu' ⊢ <;>
          split at hu'
        · exact Or.inl hu'
        · rcases List.mem_map.mp hu' with ⟨u0, hu0, rfl⟩
          split
          · exact Or.inr rfl
          · exact Or.inl hu0
        · exact Or.inl hu'
        · rcases List.mem_map.mp hu' with ⟨u0, hu0, rfl⟩
          split
          · exact Or.inr rfl
          · exact Or.inl hu0
    · simp only [hv] at hu'
      simp at hu'
      exact Or.inl hu'
  · unfold UsersService.create
    simp only
    split <;> simp [toGraphQLUser]
  · unfold UsersService.create
    simp only
    split <;> simp [toGraphQLUser, Except.map]
  · unfold UsersService.update
    split
    · rfl
    · rcases hfind : db.find? (fun u => u.id = id) with _ | user <;>
        rw [hfind] <;> simp only
      by_cases hp1 : p1 = "" <;> by_cases hp2 : p2 = "" <;>
        simp only [hp1, hp2, ne_eq, not_true_eq_false, not_false_eq_true,
          if_true, if_false, reduceIte] <;>
        split <;>
        simp [UsersService.applyUserUpdate, toGraphQLUser] <;>
        (intro a _; split <;> simp)
  · unfold UsersService.update
    split
    · rfl
    · rcases hfind : db.find? (fun u => u.id = id) with _ | user <;>
        rw [hfind] <;> simp only
      by_cases hp1 : p1 = "" <;> by_cases hp2 : p2 = "" <;>
        simp only [hp1, hp2, ne_eq, not_true_eq_false, not_false_eq_true,
          if_true, if_false, reduceIte] <;>
        split <;>
        simp [UsersService.applyUserUpdate, toGraphQLUser, Except.map]

/-- C10 witness: the create noninterference conjunct at concrete inputs. -/
theorem password_confidentiality_witness :
    (UsersService.create (fun s => String.append s "#h")
      { email := "a@b.c", name := "A", password := "pw1" } "id1" 0 []).db.map
        toGraphQLUser =
      (UsersService.create (fun s => String.append s "#h")
        { email := "a@b.c", name := "A", password := "pw2" } "id1" 0 []).db.map
        toGraphQLUser :=
  (password_confidentiality (fun s => String.append s "#h")
    { email := "a@b.c", name := "A", password := "x" } "id1" 0 [] "" {}
    "pw1" "pw2").2.2.2.1

/-- C4: every service extending an entity type must declare the owner's key
field set. In this program both the owning users service and the extending
products service declare the `User` key as the single field set `{id}` (and
the two subgraphs compose); a composition in which the extender's declared
key differs fails with a `CompositionError` naming the key mismatch. -/
theorem user_key_consistency :
    ((usersSubgraph.types.find? (fun ty => ty.name = "User")).map
      (fun ty => ty.keyFields)) = some ["id"] ∧
    ((productsSubgraph.types.find? (fun ty => ty.name = "User")).map
      (fun ty => ty.keyFields)) = some ["id"] ∧
    (∃ g, compose [usersSubgraph, productsSubgraph] = .ok g) ∧
    (∀ key : List String, key ≠ ["id"] →
      ∃ e, compose [usersSubgraph, productsSubgraphWithKey key] = .error e ∧
        CompositionViolation.keyMismatch "User" "products" ∈ e) := by
  refine ⟨rfl, rfl, ⟨_, rfl⟩, ?_⟩
  intro key hk
  refine ⟨[.keyMismatch "User" "products"], ?_, by simp⟩
  show composeSorted [productsSubgraphWithKey key, usersSubgraph] = _
  have h4 : violationsFor [productsSubgraphWithKey key, usersSubgraph] "User" =
      [.keyMismatch "User" "products"] := by
    simp [violationsFor, declsOf, productsSubgraphWithKey, productsUserExtension,
      usersSubgraph, ownedFieldNames, rootQueryType, hk]
  have h1 : composedTypeNames [productsSubgraphWithKey key, usersSubgraph] =
      ["Product", "Query", "User"] := rfl
  have h2 : violationsFor [productsSubgraphWithKey key, usersSubgraph] "Product" = [] := rfl
  have h3 : violationsFor [productsSubgraphWithKey key, usersSubgraph] "Query" = [] := rfl
  simp [composeSorted, h1, h2, h3, h4]

/-- C4 witness: the mismatch branch at the concrete altered key `["email"]`. -/
theorem user_key_consistency_witness :
    (["email"] : List String) ≠ ["id"] ∧
    ∃ e, compose [usersSubgraph, productsSubgraphWithKey ["email"]] = .error e ∧
      CompositionViolation.keyMismatch "User" "products" ∈ e :=
  ⟨by decide, user_key_consistency.2.2.2 ["email"] (by decide)⟩

/-! ## Canonical-sort lemmas (for planner determinism) -/

lemma charListLe_total : ∀ as bs : List Char,
    charListLe as bs = true ∨ charListLe bs as = true := by
  intro as
  induction as with
  | nil => intro bs; exact Or.inl rfl
  | cons a as ih =>
    intro bs
    cases bs with
    | nil => exact Or.inr rfl
    | cons b bs' =>
      rcases Nat.lt_trichotomy a.toNat b.toNat with h | h | h
      · left; simp [charListLe, h]
      · have hab : ¬ a.toNat < b.toNat := by omega
        have hba : ¬ b.toNat < a.toNat := by omega
        rcases ih bs' with h' | h'
        · left; simp [charListLe, hab, hba, h']
        · right; simp [charListLe, hab, hba, h']
      · right; simp [charListLe, h]

lemma charListLe_antisymm : ∀ as bs : List Char,
    charListLe as bs = true → charListLe bs as = true → as = bs := by
  intro as
  induction as with
  | nil =>
    intro bs h1 h2
    cases bs with
    | nil => rfl
    | cons b bs' => simp [charListLe] at h2
  | cons a as ih =>
    intro bs h1 h2
    cases bs with
    | nil => simp [charListLe] at h1
    | cons b bs' =>
      rcases Nat.lt_trichotomy a.toNat b.toNat with h | h | h
      · have h' : ¬ b.toNat < a.toNat := by omega
        simp [charListLe, h, h'] at h2
      · have h1' : ¬ a.toNat < b.toNat := by omega
        have h2' : ¬ b.toNat < a.toNat := by omega
        simp only [charListLe, h1', h2', if_false] at h1 h2
        have hab : a = b := Char.ext (UInt32.ext h)
        rw [hab, ih bs' h1 h2]
      · have h' : ¬ a.toNat < b.toNat := by omega
        simp [charListLe, h, h'] at h1

lemma charListLe_trans : ∀ as bs cs : List Char,
    charListLe as bs = true → charListLe bs cs = true → charListLe as cs = true := by
  intro as
  induction as with
  | nil => intro bs cs _ _; rfl
  | cons a as ih =>
    intro bs cs h1 h2
    cases bs with
    | nil => simp [charListLe] at h1
    | cons b bs' =>
      cases cs with
      | nil => simp [charListLe] at h2
      | cons c cs' =>
        rcases Nat.lt_trichotomy a.toNat b.toNat with hab | hab | hab
        · rcases Nat.lt_trichotomy b.toNat c.toNat with hbc | hbc | hbc
          · have : a.toNat < c.toNat := by omega
            simp [charListLe, this]
          · have : a.toNat < c.toNat := by omega
            simp [charListLe, this]
          · have hx : ¬ b.toNat < c.toNat := by omega
            simp [charListLe, hx, hbc] at h2
        · rcases Nat.lt_trichotomy b.toNat c.toNat with hbc | hbc | hbc
          · have : a.toNat < c.toNat := by omega
            simp [charListLe, this]
          · have d1 : ¬ a.toNat < b.toNat := by omega
            have d2 : ¬ b.toNat < a.toNat := by omega
            have d3 : ¬ b.toNat < c.toNat := by omega
            have d4 : ¬ c.toNat < b.toNat := by omega
            have d5 : ¬ a.toNat < c.toNat := by omega
            have d6 : ¬ c.toNat < a.toNat := by omega
            simp only [charListLe, d1, d2, if_false] at h1
            simp only [charListLe, d3, d4, if_false] at h2
            simp only [charListLe, d5, d6, if_false]
            exact ih bs' cs' h1 h2
          · have hx : ¬ b.toNat < c.toNat := by omega
            simp [charListLe, hx, hbc] at h2
        · have hx : ¬ a.toNat < b.toNat := by omega
          simp [charListLe, hx, hab] at h1

lemma strLeb_total (s t : String) : strLeb s t = true ∨ strLeb t s = true :=
  charListLe_total s.data t.data

lemma strLeb_trans {s t u : String} (h1 : strLeb s t = true)
    (h2 : strLeb t u = true) : strLeb s u = true :=
  charListLe_trans s.data t.data u.data h1 h2

lemma strLeb_antisymm {s t : String} (h1 : strLeb s t = true)
    (h2 : strLeb t s = true) : s = t :=
  String.ext (charListLe_antisymm s.data t.data h1 h2)

lemma insertSortedBy_perm {α : Type} (key : α → String) (a : α) :
    ∀ l : List α, (insertSortedBy key a l).Perm (a :: l) := by
  intro l
  induction l with
  | nil => exact List.Perm.refl _
  | cons b rest ih =>
    unfold insertSortedBy
    split
    · exact List.Perm.refl _
    · exact (List.Perm.cons b ih).trans (List.Perm.swap a b rest)

lemma sortedBy_perm {α : Type} (key : α → String) :
    ∀ l : List α, (sortedBy key l).Perm l := by
  intro l
  induction l with
  | nil => exact List.Perm.refl _
  | cons a rest ih =>
    exact (insertSortedBy_perm key a (sortedBy key rest)).trans (List.Perm.cons a ih)

lemma insertSortedBy_pairwise {α : Type} (key : α → String) (a : α) :
    ∀ l : List α,
      l.Pairwise (fun x y => strLeb (key x) (key y) = true) →
      (insertSortedBy key a l).Pairwise (fun x y => strLeb (key x) (key y) = true) := by
  intro l
  induction l with
  | nil => intro _; exact List.pairwise_singleton _ _
  | cons b rest ih =>
    intro hp
    rcases List.pairwise_cons.mp hp with ⟨hb, hrest⟩
    unfold insertSortedBy
    split
    · refine List.pairwise_cons.mpr ⟨?_, hp⟩
      intro x hx
      rcases List.mem_cons.mp hx with rfl | hx'
      · assumption
      · rename_i hab
        exact strLeb_trans hab (hb x hx')
    · rename_i hab
      have hba : strLeb (key b) (key a) = true := by
        rcases strLeb_total (key a) (key b) with h | h
        · exact absurd h hab
        · exact h
      refine List.pairwise_cons.mpr ⟨?_, ih hrest⟩
      intro x hx
      have hx' : x ∈ a :: rest := (insertSortedBy_perm key a rest).subset hx
      rcases List.mem_cons.mp hx' with rfl | hx''
      · exact hba
      · exact hb x hx''

lemma sortedBy_pairwise {α : Type} (key : α → String) :
    ∀ l : List α,
      (sortedBy key l).Pairwise (fun x y => strLeb (key x) (key y) = true) := by
  intro l
  induction l with
  | nil => exact List.Pairwise.nil
  | cons a rest ih => exact insertSortedBy_pairwise key a _ ih

lemma sorted_perm_eq_of_nodup_key {α : Type} (key : α → String) :
    ∀ {l₁ l₂ : List α}, l₁.Perm l₂ →
      l₁.Pairwise (fun x y => strLeb (key x) (key y) = true) →
      l₂.Pairwise (fun x y => strLeb (key x) (key y) = true) →
      (l₁.map key).Nodup → l₁ = l₂ := by
  intro l₁
  induction l₁ with
  | nil =>
    intro l₂ hp _ _ _
    exact (List.Perm.eq_nil hp.symm).symm
  | cons a t ih =>
    intro l₂ hp hs₁ hs₂ hnd
    cases l₂ with
    | nil => exact absurd (List.Perm.eq_nil hp) (by simp)
    | cons b t₂ =>
      have hndc : key a ∉ t.map key ∧ (t.map key).Nodup := by
        simpa only [List.map_cons, List.nodup_cons] using hnd
      have hab : a = b := by
        have hamem : a ∈ b :: t₂ := hp.subset (List.mem_cons_self a t)
        rcases List.mem_cons.mp hamem with h | hat₂
        · exact h
        · have hbmem : b ∈ a :: t := hp.symm.subset (List.mem_cons_self b t₂)
          rcases List.mem_cons.mp hbmem with h | hbt
          · exact h.symm
          · have h₁ : strLeb (key a) (key b) = true :=
              (List.pairwise_cons.mp hs₁).1 b hbt
            have h₂ : strLeb (key b) (key a) = true :=
              (List.pairwise_cons.mp hs₂).1 a hat₂
            have hk : key a = key b := strLeb_antisymm h₁ h₂
            have hmem : key b ∈ t.map key := List.mem_map_of_mem key hbt
            exact absurd (hk ▸ hmem) hndc.1
      subst hab
      have hp' := hp.cons_inv
      have ht := ih hp' (List.pairwise_cons.mp hs₁).2 (List.pairwise_cons.mp hs₂).2 hndc.2
      rw [ht]

lemma sortedBy_eq_of_perm {α : Type} (key : α → String) {l₁ l₂ : List α}
    (hperm : l₁.Perm l₂) (hnd : (l₁.map key).Nodup) :
    sortedBy key l₁ = sortedBy key l₂ := by
  refine sorted_perm_eq_of_nodup_key key ?_ (sortedBy_pairwise key l₁)
    (sortedBy_pairwise key l₂) ?_
  · exact (sortedBy_perm key l₁).trans (hperm.trans (sortedBy_perm key l₂).symm)
  · exact (List.Perm.nodup_iff ((sortedBy_perm key l₁).map key)).mpr hnd

lemma sortSchemas_eq_of_perm {ss₁ ss₂ : List SubgraphSchema}
    (hperm : ss₁.Perm ss₂) (hnd : (ss₁.map SubgraphSchema.name).Nodup) :
    sortSchemas ss₁ = sortSchemas ss₂ :=
  sortedBy_eq_of_perm SubgraphSchema.name hperm hnd

/-- C5: for every fixed pair (set of SubgraphSchemas, selection tree), the
planning pipeline is deterministic — any two presentations of the same
subgraph set (service names are unique, so the set is a duplicate-free list
up to order) produce identical ExecutionPlans: the same steps in the same
order with the same wave assignment. -/
theorem plan_deterministic (ss₁ ss₂ : List SubgraphSchema)
    (rootFields : Selection) (hperm : ss₁.Perm ss₂)
    (hnd : (ss₁.map SubgraphSchema.name).Nodup) :
    planQuery ss₁ rootFields = planQuery ss₂ rootFields := by
  unfold planQuery compose
  rw [sortSchemas_eq_of_perm hperm hnd]

/-- C5 witness: the two registration orders of the program's subgraphs. -/
theorem plan_deterministic_witness :
    ([usersSubgraph, productsSubgraph].Perm [productsSubgraph, usersSubgraph]) ∧
    ([usersSubgraph, productsSubgraph].map SubgraphSchema.name).Nodup ∧
    planQuery [usersSubgraph, productsSubgraph] exampleQuery =
      planQuery [productsSubgraph, usersSubgraph] exampleQuery :=
  ⟨by decide, by decide,
    plan_deterministic [usersSubgraph, productsSubgraph]
      [productsSubgraph, usersSubgraph] exampleQuery (by decide) (by decide)⟩

/-! ## Wave-correctness of the planner (C6) -/

/-- The spec's wave invariant for one step: wave `0` with no predecessors,
otherwise `1 +` the maximum predecessor wave. -/
def waveCorrect (steps : List PlanStep) (st : PlanStep) : Prop :=
  (st.preds = [] → st.wave = 0) ∧
  (st.preds ≠ [] →
    st.wave = 1 + (st.preds.map (fun i => (steps.getD i default).wave)).foldl max 0)

/-- Every step's predecessor indices point to strictly earlier steps. -/
def WellIndexed (specs : List StepSpec) : Prop :=
  ∀ k sp, specs.get? k = some sp → ∀ i ∈ sp.preds, i < k

lemma wellIndexed_nil : WellIndexed [] := by
  intro k sp hk
  simp at hk

lemma wellIndexed_append {specs : List StepSpec} {sp : StepSpec}
    (h : WellIndexed specs) (hs : ∀ i ∈ sp.preds, i < specs.length) :
    WellIndexed (specs ++ [sp]) := by
  intro k q hq i hi
  by_cases hk : k < specs.length
  · rw [List.get?_append hk] at hq
    exact h k q hq i hi
  · have hlen : specs.length ≤ k := Nat.le_of_not_lt hk
    rw [List.get?_append_right hlen] at hq
    rcases Nat.lt_or_ge (k - specs.length) 1 with h1 | h1
    · have hz : k - specs.length = 0 := by omega
      rw [hz] at hq
      cases hq
      have hk2 : k = specs.length := by omega
      rw [hk2]
      exact hs i hi
    · rw [List.get?_eq_none.mpr (by simpa using h1)] at hq
      cases hq

lemma planSels_wellIndexed (g : ComposedSupergraph) (tyName svc : String)
    (stepIdx : Nat) (path : List String) (specs : List StepSpec)
    (ss : Selection) :
    WellIndexed specs → stepIdx < specs.length →
    ∀ specs', planSels g tyName svc stepIdx path specs ss = .ok specs' →
    WellIndexed specs' ∧ specs.length ≤ specs'.length := by
  induction tyName, svc, stepIdx, path, specs, ss using planSels.induct g with
  | case1 tyName svc stepIdx path specs =>
    intro hw hidx specs' h
    simp only [planSels] at h
    injection h with h2
    subst h2
    exact ⟨hw, Nat.le_refl _⟩
  | case2 tyName svc stepIdx path specs f args al cs rest hlook =>
    intro hw hidx specs' h
    simp [planSels, hlook] at h
  | case3 tyName stepIdx path specs f args al cs rest fi hlook e herr ih =>
    intro hw hidx specs' h
    simp [planSels, hlook, herr] at h
  | case4 tyName stepIdx path specs f args al cs rest fi hlook specs1 hok ih1 ih2 =>
    intro hw hidx specs' h
    simp only [planSels, hlook, if_pos rfl, hok] at h
    obtain ⟨hw1, hlen1⟩ := ih1 hw hidx specs1 hok
    have hidx1 : stepIdx < specs1.length := Nat.lt_of_lt_of_le hidx hlen1
    obtain ⟨hw2, hlen2⟩ := ih2 hw1 hidx1 specs' h
    exact ⟨hw2, Nat.le_trans hlen1 hlen2⟩
  | case5 tyName svc stepIdx path specs f args al cs rest fi hlook hne newIdx newSpec e herr ih =>
    intro hw hidx specs' h
    simp [planSels, hlook, hne, herr] at h
  | case6 tyName svc stepIdx path specs f args al cs rest fi hlook hne newIdx newSpec specs1 hok ih1 ih2 =>
    intro hw hidx specs' h
    simp only [planSels, hlook, hne, if_false, if_neg, hok] at h
    have hwApp : WellIndexed (specs ++ [newSpec]) := by
      refine wellIndexed_append hw ?_
      intro i hi
      simp only [newSpec, List.mem_singleton] at hi
      subst hi
      exact hidx
    have hidxApp : newIdx < (specs ++ [newSpec]).length := by
      simp [newIdx]
    obtain ⟨hw1, hlen1⟩ := ih1 hwApp hidxApp specs1 hok
    have hgrow : specs.length ≤ specs1.length := by
      refine Nat.le_trans ?_ hlen1
      simp
    have hidx1 : stepIdx < specs1.length := Nat.lt_of_lt_of_le hidx hgrow
    obtain ⟨hw2, hlen2⟩ := ih2 hw1 hidx1 specs' h
    exact ⟨hw2, Nat.le_trans hgrow hlen2⟩

lemma planRootGroups_wellIndexed (g : ComposedSupergraph)
    (rootFields : Selection) :
    ∀ (svcs : List String) (specs specs' : List StepSpec),
      planRootGroups g rootFields svcs specs = .ok specs' →
      WellIndexed specs → WellIndexed specs' := by
  intro svcs
  induction svcs with
  | nil =>
    intro specs specs' h hw
    simp only [planRootGroups] at h
    injection h with h2
    subst h2
    exact hw
  | cons svc rest ih =>
    intro specs specs' h hw
    simp only [planRootGroups] at h
    rcases hps : planSels g rootQueryType svc specs.length []
        (specs ++ [rootStepSpec g rootFields svc]) (rootFieldsOf g rootFields svc)
      with e | specs1 <;> rw [hps] at h
    · cases h
    · have hwApp : WellIndexed (specs ++ [rootStepSpec g rootFields svc]) := by
        refine wellIndexed_append hw ?_
        intro i hi
        simp [rootStepSpec] at hi
      have hidx : specs.length < (specs ++ [rootStepSpec g rootFields svc]).length := by
        simp
      obtain ⟨hw1, _⟩ := planSels_wellIndexed g rootQueryType svc specs.length []
        _ _ hwApp hidx specs1 hps
      exact ih specs1 specs' h hw1

def wavesOk (acc : List PlanStep) : Prop :=
  ∀ k st, acc.get? k = some st →
    (∀ i ∈ st.preds, i < k) ∧ waveCorrect acc st

lemma waveCorrect_append {acc : List PlanStep} {st : PlanStep} {l : List PlanStep}
    (hb : ∀ i ∈ st.preds, i < acc.length) (h : waveCorrect acc st) :
    waveCorrect (acc ++ l) st := by
  refine ⟨h.1, fun hne => ?_⟩
  rw [h.2 hne]
  congr 1
  congr 1
  refine List.map_congr_left ?_
  intro i hi
  rw [List.getD_append _ _ _ _ (hb i hi)]

lemma assignWavesGo_good : ∀ (specs : List StepSpec) (acc : List PlanStep),
    wavesOk acc →
    (∀ k sp, specs.get? k = some sp → ∀ i ∈ sp.preds, i < acc.length + k) →
    wavesOk (assignWavesGo acc specs) := by
  intro specs
  induction specs with
  | nil =>
    intro acc hacc _
    exact hacc
  | cons sp rest ih =>
    intro acc hacc hspec
    simp only [assignWavesGo]
    have hb0 : ∀ i ∈ sp.preds, i < acc.length := by
      intro i hi
      simpa using hspec 0 sp rfl i hi
    refine ih _ ?_ ?_
    · intro k st hk
      by_cases hklt : k < acc.length
      · rw [List.get?_append hklt] at hk
        rcases hacc k st hk with ⟨hpredsk, hwc⟩
        refine ⟨hpredsk, waveCorrect_append ?_ hwc⟩
        intro i hi
        exact Nat.lt_trans (hpredsk i hi) hklt
      · have hlen : acc.length ≤ k := Nat.le_of_not_lt hklt
        rw [List.get?_append_right hlen] at hk
        rcases Nat.lt_or_ge (k - acc.length) 1 with h1 | h1
        · have hz : k - acc.length = 0 := by omega
          rw [hz] at hk
          injection hk with hk2
          subst hk2
          have hkeq : k = acc.length := by omega
          subst hkeq
          constructor
          · intro i hi
            exact hb0 i hi
          · constructor
            · intro hp0
              have hp0' : sp.preds = [] := hp0
              simp only [waveFor, hp0']
            · intro hne
              rcases hps : sp.preds with _ | ⟨q, qs⟩
              · exact absurd hps hne
              · simp only [waveFor, hps]
                congr 1
                congr 1
                refine List.map_congr_left ?_
                intro i hi
                have hilt : i < acc.length := by
                  refine hb0 i ?_
                  rw [hps]
                  exact hi
                rw [List.getD_append _ _ _ _ hilt]
        · rw [List.get?_eq_none.mpr (by simpa using h1)] at hk
          cases hk
    · intro k sp' hk i hi
      have := hspec (k + 1) sp' (by simpa using hk) i hi
      simp only [List.length_append, List.length_cons, List.length_nil]
      omega

lemma assignWaves_waveCorrect (specs : List StepSpec) (h : WellIndexed specs) :
    ∀ st ∈ assignWaves specs, waveCorrect (assignWaves specs) st := by
  have hgood : wavesOk (assignWaves specs) := by
    refine assignWavesGo_good specs [] ?_ ?_
    · intro k st hk
      simp at hk
    · intro k sp hk i hi
      simpa using h k sp hk i hi
  intro st hst
  rcases List.mem_iff_get?.mp hst with ⟨k, hk⟩
  exact (hgood k st hk).2

/-- C6: in every ExecutionPlan the planner produces, every PlanStep's wave
number equals `1 + max(predecessor wave numbers)`, and `0` when the step has
no predecessors. -/
theorem plan_wave_correct (g : ComposedSupergraph) (rootFields : Selection)
    (p : ExecutionPlan) (h : plan g rootFields = .ok p) :
    ∀ st ∈ p.steps, waveCorrect p.steps st := by
  unfold plan at h
  rcases hcol : collectRootServices g rootFields with e | svcsRaw <;> rw [hcol] at h
  · cases h
  · simp only at h
    rcases hpg : planRootGroups g rootFields (sortedBy id svcsRaw.dedup) []
      with e | specs <;> rw [hpg] at h
    · cases h
    · injection h with h2
      subst h2
      exact assignWaves_waveCorrect specs
        (planRootGroups_wellIndexed g rootFields _ [] specs hpg wellIndexed_nil)


/-- The plan the planner produces for Scenario A's query over the program's
two subgraphs (wave 0: users root step; wave 1: products entity step). -/
def examplePlanValue : ExecutionPlan :=
  { steps := [
      { service := "users", preds := [], wave := 0, isEntityResolution := false
        entityType := none, path := []
        sel := .field "user" [("id", "u1")] none
          (.field "name" [] none .nil .nil) .nil },
      { service := "products", preds := [0], wave := 1, isEntityResolution := true
        entityType := some "User", path := ["user", "products"]
        sel := .field "products" [] none
          (.field "name" [] none .nil .nil) .nil }] }

/-- C6 witness: the Scenario A plan, with its wave invariant instantiated. -/
theorem plan_wave_correct_witness :
    plan exampleSupergraph exampleQuery = .ok examplePlanValue ∧
    ∀ st ∈ examplePlanValue.steps, waveCorrect examplePlanValue.steps st := by
  have hp : plan exampleSupergraph exampleQuery = .ok examplePlanValue := by
    rfl
  exact ⟨hp, plan_wave_correct exampleSupergraph exampleQuery examplePlanValue hp⟩

/-! ## Partial-failure isolation of the plan executor (C7) -/

lemma runGo_suffix (t : Transport) : ∀ (steps : List PlanStep) (k : Nat)
    (failed : List Nat) (entries : List (List String × Option Json))
    (errors : List ResponseError),
    ∃ en2 er2, (runGo t k failed entries errors steps).entries = entries ++ en2 ∧
      (runGo t k failed entries errors steps).errors = errors ++ er2 := by
  intro steps
  induction steps with
  | nil =>
    intro k failed entries errors
    exact ⟨[], [], by simp [runGo], by simp [runGo]⟩
  | cons st rest ih =>
    intro k failed entries errors
    simp only [runGo]
    split
    · rcases ih (k + 1) (k :: failed) (entries ++ [(st.path, none)])
        (errors ++ [{ path := st.path, message := "unreachable: predecessor failed"
                      kind := .unreachable }]) with ⟨en2, er2, he, hr⟩
      exact ⟨(st.path, none) :: en2, _ :: er2, by simpa using he, by simpa using hr⟩
    · rcases hts : t k st with m | v
      · rcases ih (k + 1) (k :: failed) (entries ++ [(st.path, none)])
          (errors ++ [{ path := st.path, message := m, kind := .stepFailure }])
          with ⟨en2, er2, he, hr⟩
        exact ⟨(st.path, none) :: en2, _ :: er2, by simpa using he, by simpa using hr⟩
      · rcases ih (k + 1) failed (entries ++ [(st.path, some v)]) errors
          with ⟨en2, er2, he, hr⟩
        exact ⟨(st.path, some v) :: en2, er2, by simpa using he, by simpa using hr⟩

lemma runGo_root_entry (t : Transport) : ∀ (steps : List PlanStep) (k : Nat)
    (failed : List Nat) (entries : List (List String × Option Json))
    (errors : List ResponseError) (j : Nat) (st : PlanStep),
    steps.get? j = some st → st.preds = [] →
    (runGo t k failed entries errors steps).entries.get? (entries.length + j) =
      some (st.path,
        match t (k + j) st with | .ok v => some v | .error _ => none) := by
  intro steps
  induction steps with
  | nil =>
    intro k failed entries errors j st hj
    simp at hj
  | cons st0 rest ih =>
    intro k failed entries errors j st hj hr
    cases j with
    | zero =>
      injection hj with hj2
      subst st0
      simp only [runGo, hr, List.any_nil, Bool.false_eq_true, if_false]
      rcases hts : t k st with m | v
      · rcases runGo_suffix t rest (k + 1) (k :: failed)
          (entries ++ [(st.path, none)])
          (errors ++ [{ path := st.path, message := m, kind := .stepFailure }])
          with ⟨en2, er2, he, _⟩
        rw [he]
        rw [List.append_assoc]
        rw [List.get?_append_right (by omega)]
        simp [hts]
      · rcases runGo_suffix t rest (k + 1) failed
          (entries ++ [(st.path, some v)]) errors with ⟨en2, er2, he, _⟩
        rw [he]
        rw [List.append_assoc]
        rw [List.get?_append_right (by omega)]
        simp [hts]
    | succ j' =>
      simp only [List.get?_cons_succ] at hj
      simp only [runGo]
      split
      · have := ih (k + 1) (k :: failed) (entries ++ [(st0.path, none)])
          (errors ++ [{ path := st0.path
                        message := "unreachable: predecessor failed"
                        kind := .unreachable }]) j' st hj hr
        simp only [List.length_append, List.length_cons, List.length_nil] at this
        have harith : entries.length + 1 + j' = entries.length + (j' + 1) := by omega
        have harith2 : k + 1 + j' = k + (j' + 1) := by omega
        rw [harith, harith2] at this
        exact this
      · rcases hts : t k st0 with m | v
        · have := ih (k + 1) (k :: failed) (entries ++ [(st0.path, none)])
            (errors ++ [{ path := st0.path, message := m, kind := .stepFailure }])
            j' st hj hr
          simp only [List.length_append, List.length_cons, List.length_nil] at this
          have harith : entries.length + 1 + j' = entries.length + (j' + 1) := by omega
          have harith2 : k + 1 + j' = k + (j' + 1) := by omega
          rw [harith, harith2] at this
          exact this
        · have := ih (k + 1) failed (entries ++ [(st0.path, some v)]) errors j' st hj hr
          simp only [List.length_append, List.length_cons, List.length_nil] at this
          have harith : entries.length + 1 + j' = entries.length + (j' + 1) := by omega
          have harith2 : k + 1 + j' = k + (j' + 1) := by omega
          rw [harith, harith2] at this
          exact this

lemma runGo_root_error_mem (t : Transport) : ∀ (steps : List PlanStep) (k : Nat)
    (failed : List Nat) (entries : List (List String × Option Json))
    (errors : List ResponseError) (j : Nat) (st : PlanStep) (m : String),
    steps.get? j = some st → st.preds = [] → t (k + j) st = .error m →
    ({ path := st.path, message := m, kind := .stepFailure } : ResponseError)
      ∈ (runGo t k failed entries errors steps).errors := by
  intro steps
  induction steps with
  | nil =>
    intro k failed entries errors j st m hj
    simp at hj
  | cons st0 rest ih =>
    intro k failed entries errors j st m hj hr hfail
    cases j with
    | zero =>
      injection hj with hj2
      subst st0
      simp only [Nat.add_zero] at hfail
      simp only [runGo, hr, List.any_nil, Bool.false_eq_true, if_false, hfail]
      rcases runGo_suffix t rest (k + 1) (k :: failed)
        (entries ++ [(st.path, none)])
        (errors ++ [{ path := st.path, message := m, kind := .stepFailure }])
        with ⟨en2, er2, _, hrr⟩
      rw [hrr]
      simp
    | succ j' =>
      simp only [List.get?_cons_succ] at hj
      have harith2 : k + (j' + 1) = k + 1 + j' := by omega
      rw [harith2] at hfail
      simp only [runGo]
      split
      · exact ih (k + 1) (k :: failed) (entries ++ [(st0.path, none)])
          (errors ++ [{ path := st0.path
                        message := "unreachable: predecessor failed"
                        kind := .unreachable }]) j' st m hj hr hfail
      · rcases hts : t k st0 with m0 | v
        · exact ih (k + 1) (k :: failed) (entries ++ [(st0.path, none)])
            (errors ++ [{ path := st0.path, message := m0, kind := .stepFailure }])
            j' st m hj hr hfail
        · exact ih (k + 1) failed (entries ++ [(st0.path, some v)]) errors
            j' st m hj hr hfail

/-- C7: for every plan with two independent root steps (no predecessors), a
step-execution failure in one never removes the other root step's data from
the final MergedResponse — the failed step's entry becomes null with a
`stepFailure` error entry — and, once a plan exists, execution never aborts:
only composition and planning failures abort the whole operation. -/
theorem step_failure_isolated (p : ExecutionPlan) (t : Transport)
    (i j : Nat) (sti stj : PlanStep) (m : String) (v : Json)
    (hne : i ≠ j)
    (hi : p.steps.get? i = some sti) (hj : p.steps.get? j = some stj)
    (hri : sti.preds = []) (hrj : stj.preds = [])
    (hfail : t i sti = .error m) (hok : t j stj = .ok v) :
    (run p t).entries.get? j = some (stj.path, some v) ∧
    (run p t).entries.get? i = some (sti.path, none) ∧
    ({ path := sti.path, message := m, kind := .stepFailure } : ResponseError)
      ∈ (run p t).errors ∧
    (∀ (ss : List SubgraphSchema) (rootFields : Selection) (tr : Transport)
      (q : ExecutionPlan), planQuery ss rootFields = .ok q →
      executeQuery ss rootFields tr = .ok (run q tr)) := by
  refine ⟨?_, ?_, ?_, ?_⟩
  · have h := runGo_root_entry t p.steps 0 [] [] [] j stj hj hrj
    simp only [List.length_nil, Nat.zero_add] at h
    rw [hok] at h
    exact h
  · have h := runGo_root_entry t p.steps 0 [] [] [] i sti hi hri
    simp only [List.length_nil, Nat.zero_add] at h
    rw [hfail] at h
    exact h
  · have h := runGo_root_error_mem t p.steps 0 [] [] [] i sti m hi hri
      (by simpa using hfail)
    exact h
  · intro ss rootFields tr q hq
    unfold executeQuery
    rw [hq]

/-- The plan produced for Scenario C's two-root-service query. -/
def twoRootPlanValue : ExecutionPlan :=
  { steps := [
      { service := "products", preds := [], wave := 0, isEntityResolution := false
        entityType := none, path := []
        sel := .field "products" [] none (.field "name" [] none .nil .nil) .nil },
      { service := "users", preds := [], wave := 0, isEntityResolution := false
        entityType := none, path := []
        sel := .field "user" [("id", "u1")] none
          (.field "name" [] none .nil .nil) .nil }] }

/-- A transport in which the first step's outbound call fails. -/
def failFirstTransport : Transport :=
  fun k _ => if k = 0 then .error "simulated transport error" else .ok (Json.obj [])

/-- C7 witness: Scenario C — the products root step fails, the users root
step's data still appears, and one `stepFailure` error entry is recorded. -/
theorem step_failure_isolated_witness :
    plan exampleSupergraph twoRootQuery = .ok twoRootPlanValue ∧
    (run twoRootPlanValue failFirstTransport).entries.get? 1 =
      some ([], some (Json.obj [])) ∧
    (run twoRootPlanValue failFirstTransport).entries.get? 0 = some ([], none) ∧
    ({ path := [], message := "simulated transport error", kind := .stepFailure }
      : ResponseError) ∈ (run twoRootPlanValue failFirstTransport).errors := by
  have hp : plan exampleSupergraph twoRootQuery = .ok twoRootPlanValue := by
    rfl
  have hiso := step_failure_isolated twoRootPlanValue failFirstTransport 0 1
    twoRootPlanValue.steps[0] twoRootPlanValue.steps[1]
    "simulated transport error" (Json.obj []) (by decide) rfl rfl rfl rfl rfl rfl
  exact ⟨hp, hiso.1, hiso.2.1, hiso.2.2.1⟩
